import Mathlib

/-!
Shallow embedding of `src/index.ts` of the `agentcodereview` GitHub Action:
a tool that aggregates pull-request review comments into one markdown
document.  Strings are modelled as `List Char` (connected to `String`
literals via `String.data` / `List.asString`); the JavaScript regular
expressions of the source are compiled by hand into executable scanning
functions, with comments justifying each step of the compilation against
ECMAScript matching semantics.
-/

set_option maxRecDepth 10000

namespace AgentCodeReview

/-- Character set of the ECMAScript `\s` class (WhiteSpace ∪ LineTerminator). -/
def jsWhitespace (c : Char) : Bool :=
  c = ' ' || c = '\t' || c = '\n' || c = '\r' || c = '\x0b' || c = '\x0c' ||
  c = ' ' || c = ' ' || (' ' ≤ c && c ≤ ' ') ||
  c = ' ' || c = ' ' || c = ' ' || c = ' ' || c = '　' || c = '﻿'

/-- Line terminators, which the ECMAScript `.` class does not match. -/
def jsLineTerminator (c : Char) : Bool :=
  c = '\n' || c = '\r' || c = ' ' || c = ' '

/-- ECMAScript `\d` (always ASCII digits). -/
def jsDigit (c : Char) : Bool :=
  '0' ≤ c && c ≤ '9'

/-- The backquote character (delimiter of fenced code blocks). -/
def backquote : Char := Char.ofNat 96

/-- Value of `parseInt(ds, 10)` on a nonempty ASCII digit string. -/
def digitsToNat (ds : List Char) : Nat :=
  ds.foldl (fun n c => n * 10 + (c.toNat - '0'.toNat)) 0

/-- Drop JS whitespace from the end of a character list. -/
def dropTrailingWs (l : List Char) : List Char :=
  (l.reverse.dropWhile jsWhitespace).reverse

/-- Model of `String.prototype.trim` (drop JS whitespace from both ends). -/
def trimJS (l : List Char) : List Char :=
  dropTrailingWs (l.dropWhile jsWhitespace)

/-- Case-insensitive literal match: strip `pat` (given pre-lowercased) from the
front of `s`, comparing through `Char.toLower`, which is exactly the ASCII
folding the source's `/i` patterns need. -/
def stripPrefixCI : List Char → List Char → Option (List Char)
  | [], s => some s
  | _ :: _, [] => none
  | p :: ps, c :: cs => if Char.toLower c = p then stripPrefixCI ps cs else none

/-- Case-sensitive prefix test used by the substring search below. -/
def isPrefixOfChars : List Char → List Char → Bool
  | [], _ => true
  | _ :: _, [] => false
  | p :: ps, c :: cs => p = c && isPrefixOfChars ps cs

/-- Model of `String.prototype.includes`: does `pat` occur in the list? -/
def containsSub (pat : List Char) : List Char → Bool
  | [] => isPrefixOfChars pat []
  | c :: rest => isPrefixOfChars pat (c :: rest) || containsSub pat rest

/-! ### The Greptile block regex

The source scans the body with
`/<details><summary>Prompt To Fix With AI<\/summary>\s*`(3..5 backquotes)`markdown\s*([\s\S]*?)`(3..5)`\s*<\/details>/gi`.
Every quantifier in this pattern is deterministic once leftmost matching is
fixed: each `\s*` is followed by a non-whitespace literal (a backquote or
`<`), so giving characters back never helps, and the bounded backquote
repetitions are followed by non-backquote literals, so only the full run of
backquotes (when its length lies in 3..5) can succeed.  The lazy group
`([\s\S]*?)` takes the shortest text after which the closing delimiter
matches.  The functions below implement exactly that. -/

/-- Lowercased literal opening of a Greptile block. -/
def openTag : List Char :=
  "<details><summary>prompt to fix with ai</summary>".data

/-- Lowercased literal `markdown` info string of the fenced block. -/
def mdTag : List Char := "markdown".data

/-- Lowercased literal closing tag. -/
def closeTag : List Char := "</details>".data

/-- Length of the run of backquotes at the front of the list. -/
def countTicks (s : List Char) : Nat :=
  (s.takeWhile (fun c => c = backquote)).length

/-- Try to match the closing  ``​`{3,5}\s*</details>``  of a block at this
position, returning the remainder after the whole match. -/
def closingAt (t : List Char) : Option (List Char) :=
  let b := countTicks t
  if 3 ≤ b ∧ b ≤ 5 then
    stripPrefixCI closeTag ((t.drop b).dropWhile jsWhitespace)
  else none

/-- Lazy search for the closing delimiter of a block: the captured text is the
shortest prefix after which `closingAt` succeeds.  Returns the capture and the
remainder after the closing delimiter. -/
def findClosing : List Char → Option (List Char × List Char)
  | [] => none
  | c :: rest =>
    match closingAt (c :: rest) with
    | some rem => some ([], rem)
    | none =>
      match findClosing rest with
      | some (cap, rem) => some (c :: cap, rem)
      | none => none

/-- Try to match one whole Greptile block at this position.  Returns the
captured inner text (group 1 of the regex) and the remainder of the body
after the match. -/
def matchBlockAt (s : List Char) : Option (List Char × List Char) :=
  match stripPrefixCI openTag s with
  | none => none
  | some r1 =>
    let r2 := r1.dropWhile jsWhitespace
    let b := countTicks r2
    if 3 ≤ b ∧ b ≤ 5 then
      match stripPrefixCI mdTag (r2.drop b) with
      | none => none
      | some r4 => findClosing (r4.dropWhile jsWhitespace)
    else none

/-- Global scan of the body (the `while exec` loop): find each leftmost,
non-overlapping block match and collect the captures.  Fuel is the length of
the input; every step consumes at least one character, so the fuel never runs
out. -/
def extractBlocksGo : Nat → List Char → List (List Char)
  | 0, _ => []
  | _ + 1, [] => []
  | fuel + 1, c :: rest =>
    match matchBlockAt (c :: rest) with
    | some (cap, rem) => cap :: extractBlocksGo fuel rem
    | none => extractBlocksGo fuel rest

/-- All group-1 captures of the global block regex over the body. -/
def extractBlocks (s : List Char) : List (List Char) :=
  extractBlocksGo s.length s

/-! ### The three field regexes inside a block -/

/-- Lowercased `Path:` label. -/
def pathLabel : List Char := "path:".data

/-- Lowercased `Line:` label. -/
def lineLabel : List Char := "line:".data

/-- Lowercased `Comment:` label. -/
def commentLabel : List Char := "comment:".data

/-- Lowercased trailing marker phrase of the comment field. -/
def stopPhrase : List Char := "how can i resolve".data

/-- Backtracking tail of `/Path:\s*(.+)/i`: greedy `\s*` tries from `k`
whitespace characters downwards until `(.+)` can start (a character that is
not a line terminator); the capture is then the maximal run of
non-line-terminator characters. -/
def tryPathK : Nat → List Char → Option (List Char)
  | k, s =>
    match s.drop k with
    | c :: rest =>
      if jsLineTerminator c then
        match k with
        | 0 => none
        | k' + 1 => tryPathK k' s
      else some ((c :: rest).takeWhile (fun x => !jsLineTerminator x))
    | [] =>
      match k with
      | 0 => none
      | k' + 1 => tryPathK k' s

/-- Capture of `/Path:\s*(.+)/i` starting right after the label. -/
def pathTail (s : List Char) : Option (List Char) :=
  tryPathK (s.takeWhile jsWhitespace).length s

/-- Leftmost match of `/Path:\s*(.+)/i` over the block content: try the label
at each position; if the tail fails there, the engine moves one character
forward, exactly as below. -/
def pathSearch : List Char → Option (List Char)
  | [] => none
  | c :: rest =>
    match stripPrefixCI pathLabel (c :: rest) with
    | some after =>
      match pathTail after with
      | some cap => some cap
      | none => pathSearch rest
    | none => pathSearch rest

/-- Tail of `/Line:\s*(\d+)(?::\d+)?/i`: `\s` and `\d` are disjoint, so the
greedy `\s*` deterministically takes the maximal whitespace run, and group 1
is the maximal digit run after it (the optional `:\d+` does not affect it). -/
def lineTail (s : List Char) : Option (List Char) :=
  let ds := (s.dropWhile jsWhitespace).takeWhile jsDigit
  if ds = [] then none else some ds

/-- Leftmost match of `/Line:\s*(\d+)(?::\d+)?/i` over the block content. -/
def lineSearch : List Char → Option (List Char)
  | [] => none
  | c :: rest =>
    match stripPrefixCI lineLabel (c :: rest) with
    | some after =>
      match lineTail after with
      | some cap => some cap
      | none => lineSearch rest
    | none => lineSearch rest

/-- Lazy capture of `/Comment:\s*([\s\S]*?)(?:How can I resolve|$)/i` after
the label and the (deterministic, since the stop phrase starts with a
non-whitespace character) greedy `\s*`: everything up to the first occurrence
of the stop phrase, or to the end of the block. -/
def splitAtStop : List Char → List Char
  | [] => []
  | c :: rest =>
    if (stripPrefixCI stopPhrase (c :: rest)).isSome then []
    else c :: splitAtStop rest

/-- Leftmost match of the comment-field regex; it succeeds at the first
occurrence of the label because of the `|$` alternative. -/
def commentSearch : List Char → Option (List Char)
  | [] => none
  | c :: rest =>
    match stripPrefixCI commentLabel (c :: rest) with
    | some after => some (splitAtStop (after.dropWhile jsWhitespace))
    | none => commentSearch rest

/-! ### Data model -/

/-- Embedding of the `ReviewComment` interface of the source. -/
structure ReviewComment where
  id : Nat
  path : String
  line : Option Nat
  body : String
  user : String
  url : String
  createdAt : String
  isResolved : Bool
deriving DecidableEq, Repr

/-- Embedding of the `Review` interface of the source. -/
structure Review where
  id : Nat
  body : String
  user : String
  state : String
  url : String
  submittedAt : String
deriving DecidableEq, Repr

/-- Embedding of the `AggregatedFeedback` interface of the source. -/
structure AggregatedFeedback where
  prNumber : Nat
  prTitle : String
  prUrl : String
  openComments : List ReviewComment
  resolvedComments : List ReviewComment
  reviews : List Review
  updatedAt : String
deriving DecidableEq, Repr

/-! ### parseGreptileComments -/

/-- Field extraction of one matched block (the body of the `while` loop up to
the `if (pathMatch && commentMatch)` guard): trimmed path capture, parsed
line number, trimmed comment capture. -/
def parseBlockFields (blockContent : List Char) : Option (String × Option Nat × String) :=
  match pathSearch blockContent, commentSearch blockContent with
  | some p, some c =>
    some ((trimJS p).asString, (lineSearch blockContent).map digitsToNat, (trimJS c).asString)
  | _, _ => none

/-- The accumulation loop of `parseGreptileComments`: each accepted block
pushes a comment whose id is `commentId + comments.length` at push time. -/
def parseGreptileLoop (commentId : Nat) (user url createdAt : String) :
    List (List Char) → List ReviewComment → List ReviewComment
  | [], acc => acc
  | b :: bs, acc =>
    match parseBlockFields b with
    | some (p, ln, txt) =>
      parseGreptileLoop commentId user url createdAt bs
        (acc ++ [⟨commentId + acc.length, p, ln, txt, user, url, createdAt, false⟩])
    | none => parseGreptileLoop commentId user url createdAt bs acc

/-- Embedding of `parseGreptileComments`: scan the body for all block
matches, then run the accumulation loop (the source interleaves the two, but
block scanning does not depend on the accumulated comments). -/
def parseGreptileComments (commentId : Nat) (body user url createdAt : String) :
    List ReviewComment :=
  parseGreptileLoop commentId user url createdAt (extractBlocks body.data) []

/-- Specification-side description of the extractor result: one comment per
qualifying block, numbered consecutively from `n`. -/
def numberComments (commentId : Nat) (user url createdAt : String) :
    Nat → List (String × Option Nat × String) → List ReviewComment
  | _, [] => []
  | n, (p, ln, txt) :: rest =>
    ⟨commentId + n, p, ln, txt, user, url, createdAt, false⟩ ::
      numberComments commentId user url createdAt (n + 1) rest

/-! ### fetchGreptileCommentsFromIssueComments -/

/-- One general (issue-level) PR comment as returned by the platform. -/
structure IssueComment where
  id : Nat
  user : Option String
  body : Option String
  html_url : String
  created_at : String
deriving DecidableEq, Repr

/-- The `comment.user?.login || 'unknown'` computation (an empty login is
falsy in JavaScript and also falls back to `unknown`). -/
def userLogin (c : IssueComment) : String :=
  match c.user with
  | some s => if s = "" then "unknown" else s
  | none => "unknown"

/-- The guard of the loop in `fetchGreptileCommentsFromIssueComments`:
the author must be exactly the Greptile bot and the body must contain the
literal marker (case-sensitively). -/
def isGreptilePromptComment (c : IssueComment) : Bool :=
  userLogin c = "greptile-apps[bot]" &&
    (match c.body with
     | some b => containsSub "Prompt To Fix With AI".data b.data
     | none => false)

/-- Embedding of `fetchGreptileCommentsFromIssueComments` over the list of
issue comments the platform returns: the loop pushes the parsed comments of
each qualifying bot comment. -/
def fetchGreptileCommentsFromIssueComments : List IssueComment → List ReviewComment
  | [] => []
  | c :: rest =>
    (if isGreptilePromptComment c then
      parseGreptileComments c.id (c.body.getD "") (userLogin c) c.html_url c.created_at
    else []) ++ fetchGreptileCommentsFromIssueComments rest

/-! ### Noise filter -/

/-- Embedding of `isIgnoredBotComment`. -/
def isIgnoredBotComment (body : String) : Bool :=
  let lowerBody := body.data.map Char.toLower
  if containsSub "rate limit".data lowerBody && containsSub "coderabbit".data lowerBody then
    true
  else false

/-- Specification-side notion of case-insensitively containing a pattern. -/
def ciContains (body pat : String) : Bool :=
  containsSub pat.data (body.data.map Char.toLower)

/-! ### fetchResolvedStatus -/

/-- One review thread as reported by the GraphQL side channel:
its resolution flag and the database ids of its `comments(first: 1)` nodes. -/
structure ReviewThread where
  isResolved : Bool
  firstCommentIds : List Nat
deriving DecidableEq, Repr

/-- The `resolvedThreadIds` set: anchor id of every resolved thread that has
at least one comment (a `Set<number>` is modelled as a list queried by
membership). -/
def resolvedThreadIds : List ReviewThread → List Nat
  | [] => []
  | t :: rest =>
    (match t.firstCommentIds with
     | anchor :: _ => if t.isResolved then [anchor] else []
     | [] => []) ++ resolvedThreadIds rest

/-- Embedding of `fetchResolvedStatus`.  The GraphQL call either yields the
review threads or throws; the `catch` branch returns the comments unchanged
and emits a warning, modelled by the boolean component. -/
def fetchResolvedStatus (queryResult : Except String (List ReviewThread))
    (comments : List ReviewComment) : List ReviewComment × Bool :=
  match queryResult with
  | Except.ok threads =>
    let ids := resolvedThreadIds threads
    (comments.map (fun c => { c with isResolved := ids.contains c.id }), false)
  | Except.error _ => (comments, true)

/-! ### Partition into open and resolved -/

/-- The `openComments` filter of `run`. -/
def openCommentsOf (comments : List ReviewComment) : List ReviewComment :=
  comments.filter (fun c => !c.isResolved)

/-- The `resolvedComments` filter of `run`. -/
def resolvedCommentsOf (comments : List ReviewComment) : List ReviewComment :=
  comments.filter (fun c => c.isResolved)

/-! ### groupByFile and object key order

`groupByFile` stores the groups in a plain JavaScript object.  Property
iteration order of such an object is: keys that are array indices (canonical
base-10 integers below `2^32 - 1`) first, in ascending numeric order, then
the remaining string keys in insertion order.  The record is modelled as an
insertion-ordered association list, and `jsEntries` applies the
ECMAScript reordering when the object is enumerated. -/

/-- The `comment.path || 'general'` key (an empty path is falsy). -/
def pathKey (c : ReviewComment) : String :=
  if c.path = "" then "general" else c.path

/-- Append a comment to the group of its key, or create the group at the end
(property creation order) if the key is new. -/
def addToGroups (groups : List (String × List ReviewComment)) (key : String)
    (c : ReviewComment) : List (String × List ReviewComment) :=
  match groups with
  | [] => [(key, [c])]
  | (k, g) :: rest =>
    if k = key then (k, g ++ [c]) :: rest else (k, g) :: addToGroups rest key c

/-- The grouping loop of `groupByFile`. -/
def buildGroupsGo : List (String × List ReviewComment) → List ReviewComment →
    List (String × List ReviewComment)
  | groups, [] => groups
  | groups, c :: rest => buildGroupsGo (addToGroups groups (pathKey c) c) rest

/-- The record built by the first loop of `groupByFile`. -/
def buildGroups (comments : List ReviewComment) : List (String × List ReviewComment) :=
  buildGroupsGo [] comments

/-- Comparator key order of `groups[path].sort((a, b) => (a.line || 0) - (b.line || 0))`. -/
def lineLe (a b : ReviewComment) : Prop :=
  a.line.getD 0 ≤ b.line.getD 0

instance : DecidableRel lineLe := fun a b =>
  inferInstanceAs (Decidable (a.line.getD 0 ≤ b.line.getD 0))

instance : IsTotal ReviewComment lineLe :=
  ⟨fun a b => Nat.le_total (a.line.getD 0) (b.line.getD 0)⟩

instance : IsTrans ReviewComment lineLe :=
  ⟨fun _ _ _ h h' => Nat.le_trans h h'⟩

/-- JavaScript `Array.prototype.sort` is stable and insertion sort with the
`≤` lift of the comparator computes exactly the stable sort. -/
def sortByLine (g : List ReviewComment) : List ReviewComment :=
  List.insertionSort lineLe g

/-- Embedding of `groupByFile`: build the record, then sort each group in
place by line number. -/
def groupByFile (comments : List ReviewComment) : List (String × List ReviewComment) :=
  (buildGroups comments).map (fun kv => (kv.1, sortByLine kv.2))

/-- Is the string a canonical array index (ECMAScript integer-indexed key)? -/
def isArrayIndexKey (s : String) : Bool :=
  s.data ≠ [] && s.data.all jsDigit && (s.data = ['0'] || s.data.head? ≠ some '0') &&
    digitsToNat s.data < 4294967295

/-- Numeric order on array-index keys. -/
def numKeyLe (a b : String × List ReviewComment) : Prop :=
  digitsToNat a.1.data ≤ digitsToNat b.1.data

instance : DecidableRel numKeyLe := fun a b =>
  inferInstanceAs (Decidable (digitsToNat a.1.data ≤ digitsToNat b.1.data))

/-- ECMAScript own-property enumeration order applied to the association
list: array-index keys first in ascending numeric order, then the other keys
in insertion order. -/
def jsEntries (l : List (String × List ReviewComment)) : List (String × List ReviewComment) :=
  List.insertionSort numKeyLe (l.filter (fun kv => isArrayIndexKey kv.1)) ++
    l.filter (fun kv => !isArrayIndexKey kv.1)

/-- The group sequence `Object.entries(byFile)` iterated by the renderer. -/
def renderedGroups (comments : List ReviewComment) : List (String × List ReviewComment) :=
  jsEntries (groupByFile comments)

/-- First occurrences of a list of keys, in first-insertion order. -/
def dedupFirst : List String → List String
  | [] => []
  | k :: ks => k :: (dedupFirst ks).filter (fun x => x ≠ k)

/-- Specification-side description of the grouped record: distinct paths in
first-insertion order, each carrying the comments of that path in encounter
order. -/
def specGroups (comments : List ReviewComment) : List (String × List ReviewComment) :=
  (dedupFirst (comments.map pathKey)).map
    (fun k => (k, comments.filter (fun c => pathKey c = k)))

/-! ### generateMarkdown

The source pushes lines into an array and joins them with `"\n"`; the
embedding concatenates the per-phase line lists in the same order. -/

/-- Model of JavaScript `body.split('\n')` (empty pieces preserved). -/
def splitOnNewline (l : List Char) : List (List Char) :=
  l.foldr
    (fun c acc =>
      if c = '\n' then [] :: acc
      else
        match acc with
        | [] => [[c]]
        | cur :: rest => (c :: cur) :: rest)
    [[]]

/-- Split a string into its lines the way the renderer quotes bodies. -/
def splitLines (s : String) : List String :=
  (splitOnNewline s.data).map List.asString

/-- Model of `lines.join('\n')`. -/
def joinLines : List String → String
  | [] => ""
  | [l] => l
  | l :: rest => l ++ "\n" ++ joinLines rest

/-- Header block of the document (lines 238-245 of the source). -/
def headerLines (f : AggregatedFeedback) : List String :=
  ["# PR #" ++ toString f.prNumber ++ " Review Feedback",
   "",
   "> **For AI coding assistants:** Fix all unchecked items below. Each item includes",
   "> the file path, line number, reviewer, and their feedback.",
   ">",
   "> **PR:** [" ++ f.prTitle ++ "](" ++ f.prUrl ++ ")",
   "> **Last updated:** " ++ f.updatedAt,
   ""]

/-- Status block (lines 250-256): note that the resolved part is pushed as a
line of its own. -/
def statusLines (f : AggregatedFeedback) (includeResolved : Bool) : List String :=
  ["**Status:** " ++ toString f.openComments.length ++ " open issue" ++
    (if f.openComments.length ≠ 1 then "s" else "")] ++
  (if includeResolved ∧ 0 < f.resolvedComments.length then
    [" | " ++ toString f.resolvedComments.length ++ " resolved"]
  else []) ++
  ["", "---", ""]

/-- Checklist item of one open comment (a zero line number is falsy and
renders as `General`). -/
def commentItemLines (c : ReviewComment) : List String :=
  let lineInfo :=
    match c.line with
    | some n => if n = 0 then "General" else "Line " ++ toString n
    | none => "General"
  ["- [ ] **" ++ lineInfo ++ "** · @" ++ c.user, ""] ++
  (splitLines c.body).map (fun bodyLine => "  > " ++ bodyLine) ++
  [""]

/-- Heading and items of one file group. -/
def fileGroupLines (kv : String × List ReviewComment) : List String :=
  ["### `" ++ kv.1 ++ "`", ""] ++ kv.2.flatMap commentItemLines

/-- Open-issues section (lines 259-286). -/
def openSectionLines (f : AggregatedFeedback) : List String :=
  if 0 < f.openComments.length then
    ["## Open Issues", ""] ++ (renderedGroups f.openComments).flatMap fileGroupLines
  else
    ["## No Open Issues", "", "All review comments have been resolved!", ""]

/-- One struck-through resolved item (a zero line number is falsy and omits
the `:line` suffix). -/
def resolvedItemLine (c : ReviewComment) : String :=
  let location :=
    match c.line with
    | some n =>
      if n = 0 then "`" ++ c.path ++ "`" else "`" ++ c.path ++ ":" ++ toString n ++ "`"
    | none => "`" ++ c.path ++ "`"
  "- [x] ~~" ++ location ++ " · @" ++ c.user ++ "~~"

/-- Resolved section (lines 289-302). -/
def resolvedSectionLines (f : AggregatedFeedback) (includeResolved : Bool) : List String :=
  if includeResolved ∧ 0 < f.resolvedComments.length then
    ["---", "", "## Resolved", ""] ++ f.resolvedComments.map resolvedItemLine ++ [""]
  else []

/-- Reviews with a body longer than 20 characters and not pending (the
source measures UTF-16 units; code points coincide on the material in
scope). -/
def significantReviews (f : AggregatedFeedback) : List Review :=
  f.reviews.filter (fun r => 20 < r.body.length && r.state ≠ "PENDING")

/-- The state emoji of a review heading (all three branches of the source
are the empty string). -/
def stateEmoji (state : String) : String :=
  if state = "APPROVED" then "" else if state = "CHANGES_REQUESTED" then "" else ""

/-- Model of `replace('_', ' ')` (first occurrence only). -/
def replaceFirstUnderscore : List Char → List Char
  | [] => []
  | c :: rest => if c = '_' then ' ' :: rest else c :: replaceFirstUnderscore rest

/-- Heading and quoted body of one review summary. -/
def reviewSectionLines (r : Review) : List String :=
  ["### " ++ stateEmoji r.state ++ " @" ++ r.user ++ " (" ++
    (replaceFirstUnderscore (r.state.data.map Char.toLower)).asString ++ ")", ""] ++
  (splitLines r.body).map (fun bodyLine => "> " ++ bodyLine) ++
  [""]

/-- Review-summaries section (lines 309-330). -/
def reviewsSectionLines (f : AggregatedFeedback) : List String :=
  if 0 < (significantReviews f).length then
    ["---", "", "## Review Summaries", ""] ++ (significantReviews f).flatMap reviewSectionLines
  else []

/-- The full line sequence of `generateMarkdown`. -/
def generateMarkdownLines (f : AggregatedFeedback) (includeResolved : Bool) : List String :=
  headerLines f ++ statusLines f includeResolved ++ openSectionLines f ++
    resolvedSectionLines f includeResolved ++ reviewsSectionLines f

/-- Embedding of `generateMarkdown`. -/
def generateMarkdown (f : AggregatedFeedback) (includeResolved : Bool) : String :=
  joinLines (generateMarkdownLines f includeResolved)

/-! ### The committed-file sink

The repository file is modelled by its content (`none` when absent).
`getContent` throwing a 404 corresponds to the `none` case and is caught. -/

/-- Failures of the platform file API that are not the expected 404. -/
inductive ApiError where
  | status (code : Nat)
deriving DecidableEq, Repr

/-- Embedding of `deleteFeedbackFile`: delete the file when it exists, treat
absence as a caught 404 and do nothing; both branches succeed. -/
def deleteFeedbackFile (file : Option String) : Except ApiError (Option String) :=
  match file with
  | some _ => Except.ok none
  | none => Except.ok none

/-- Embedding of `commitFeedbackFile`: create or update the file with the
rendered content (reusing the current sha when present). -/
def commitFeedbackFile (file : Option String) (content : String) :
    Except ApiError (Option String) :=
  match file with
  | some _ => Except.ok (some content)
  | none => Except.ok (some content)

/-- The committed-file branch of `run` (lines 558-565): skip when no path is
configured, delete on zero open comments, otherwise commit the markdown. -/
def runFeedbackSink (path : String) (openCount : Nat) (content : String)
    (file : Option String) : Except ApiError (Option String) :=
  if path = "" then Except.ok file
  else if openCount = 0 then deleteFeedbackFile file
  else commitFeedbackFile file content

/-! ### Concrete data used to instantiate the theorems -/

/-- Comment constructor with fixed non-essential metadata. -/
def sampleComment (id : Nat) (path : String) (line : Option Nat) (resolved : Bool) :
    ReviewComment :=
  ⟨id, path, line, "body", "reviewer", "https://example/c", "2024-01-15T10:30:00Z", resolved⟩

/-- The grouping example of the specification: paths `b.go`, `a.go`, `b.go`
with lines 5, 1, 2. -/
def c2example : List ReviewComment :=
  [sampleComment 1 "b.go" (some 5) false,
   sampleComment 2 "a.go" (some 1) false,
   sampleComment 3 "b.go" (some 2) false]

/-- Comments one of which targets a file named `3` (an array-index key). -/
def c2cex : List ReviewComment :=
  [sampleComment 1 "b.go" (some 5) false,
   sampleComment 2 "3" (some 1) false]

/-- Two unresolved comments entering the reconciler. -/
def c4Comments : List ReviewComment :=
  [sampleComment 1 "a.go" (some 1) false,
   sampleComment 2 "b.go" (some 2) false]

/-- One resolved thread anchored at comment 2, one unresolved at comment 1. -/
def c4Threads : List ReviewThread :=
  [⟨true, [2]⟩, ⟨false, [1]⟩]

/-- A bot comment body holding two well-formed structured blocks. -/
def c5Body : String :=
  "<details><summary>Prompt To Fix With AI</summary>\n```markdown\nPath: a.go\nLine: 1\nComment: fix a\n```\n</details>\n<details><summary>Prompt To Fix With AI</summary>\n```markdown\nPath: b.go\nLine: 2\nComment: fix b\n```\n</details>"

/-- A Greptile bot comment with id 100 carrying `c5Body`. -/
def c5Issue : IssueComment :=
  ⟨100, some "greptile-apps[bot]", some c5Body, "https://example/ic", "2024-01-15T10:30:00Z"⟩

/-- An inline review comment whose platform id is 101. -/
def c5Inline : ReviewComment :=
  sampleComment 101 "c.go" (some 3) false

/-- The merged comment list of one aggregation run over these sources. -/
def c5Merged : List ReviewComment :=
  [c5Inline] ++ fetchGreptileCommentsFromIssueComments [c5Issue]

/-- A snapshot with two open comments and one resolved comment. -/
def c6Feedback : AggregatedFeedback :=
  ⟨123, "Add user authentication", "https://example/pr",
   [sampleComment 1 "a.go" (some 10) false, sampleComment 2 "a.go" (some 5) false],
   [sampleComment 3 "b.go" (some 1) true],
   [], "2024-01-15T10:30:00Z"⟩

/-- A snapshot with no open comments and one resolved comment. -/
def c7Feedback : AggregatedFeedback :=
  ⟨123, "Add user authentication", "https://example/pr",
   [],
   [sampleComment 3 "b.go" (some 1) true],
   [], "2024-01-15T10:30:00Z"⟩

/-- A comment list with mixed resolution flags. -/
def c3Comments : List ReviewComment :=
  [sampleComment 1 "a.go" (some 10) false,
   sampleComment 3 "b.go" (some 1) true,
   sampleComment 2 "a.go" (some 5) false]

/-! ## Theorems -/

/-- Characterization of the extractor loop: starting from any accumulator,
it appends one comment per qualifying block, numbered from the current
accumulator length. -/
theorem parseGreptileLoop_eq (cid : Nat) (u url t : String) (bs : List (List Char))
    (acc : List ReviewComment) :
    parseGreptileLoop cid u url t bs acc
      = acc ++ numberComments cid u url t acc.length (bs.filterMap parseBlockFields) := by
  induction bs generalizing acc with
  | nil => simp [parseGreptileLoop, numberComments]
  | cons b bs ih =>
    cases hb : parseBlockFields b with
    | none =>
      simp [parseGreptileLoop, hb, List.filterMap_cons, ih]
    | some v =>
      obtain ⟨p, ln, txt⟩ := v
      simp only [parseGreptileLoop, hb, List.filterMap_cons, ih, List.length_append,
        List.length_cons, List.length_nil, numberComments]
      rw [List.append_assoc]
      rfl

/-- Ids assigned by the numbering are consecutive from `cid + n`. -/
theorem numberComments_map_id (cid : Nat) (u url t : String) (n : Nat)
    (l : List (String × Option Nat × String)) :
    (numberComments cid u url t n l).map (fun c => c.id) = List.range' (cid + n) l.length := by
  induction l generalizing n with
  | nil => simp [numberComments]
  | cons x rest ih =>
    obtain ⟨p, ln, txt⟩ := x
    rw [numberComments, List.map_cons, ih]
    rfl

/-- C1: for every comment body, the extractor yields exactly one comment per
delimited block whose path and comment fields are both present — carrying
the parsed path, the first number of the line field (or none), the trimmed
comment text and `resolved = false`, numbered consecutively from the source
id — while blocks missing a required field are skipped without affecting the
others, and a body with no matching block yields the empty list. -/
theorem extractor_one_comment_per_block (cid : Nat) (body u url t : String) :
    parseGreptileComments cid body u url t
      = numberComments cid u url t 0 ((extractBlocks body.data).filterMap parseBlockFields) := by
  simpa using parseGreptileLoop_eq cid u url t (extractBlocks body.data) []

/-- C5 (amended): the ids synthesized for the blocks of one source comment
are pairwise distinct (source id plus match ordinal). -/
theorem extractor_ids_nodup (cid : Nat) (body u url t : String) :
    ((parseGreptileComments cid body u url t).map (fun c => c.id)).Nodup := by
  rw [parseGreptileComments, parseGreptileLoop_eq]
  simp [numberComments_map_id]
  exact List.nodup_range' _ _

/-- C5 (counterexample): with an inline comment of id 101 and a bot comment
of id 100 whose body holds two structured blocks, the merged comment set of
the run has two comments with id 101, so the ids are not pairwise
distinct. -/
theorem merged_ids_not_distinct_cex :
    (c5Merged.map (fun c => c.id)).count 101 = 2
    ∧ decide ((c5Merged.map (fun c => c.id)).Nodup) = false := by
  constructor
  · rfl
  · rfl

/-- C10: structured-block extraction contributes comments exactly for the
general PR comments whose author login is `greptile-apps[bot]` and whose
body contains the literal marker `Prompt To Fix With AI`; every other
comment contributes nothing, whatever its body holds. -/
theorem greptile_extraction_gated (cs : List IssueComment) :
    fetchGreptileCommentsFromIssueComments cs
      = (cs.filter isGreptilePromptComment).flatMap
          (fun c => parseGreptileComments c.id (c.body.getD "") (userLogin c) c.html_url c.created_at) := by
  induction cs with
  | nil => rfl
  | cons c rest ih =>
    cases h : isGreptilePromptComment c <;>
      simp [fetchGreptileCommentsFromIssueComments, h, ih, List.filter_cons]

/-- C8: a body is excluded by the noise filter exactly when it
case-insensitively contains both `rate limit` and `coderabbit`; with at most
one of the two terms the filter keeps it. -/
theorem noise_filter_requires_both_terms (body : String) :
    isIgnoredBotComment body
      = (ciContains body "rate limit" && ciContains body "coderabbit") := by
  simp [isIgnoredBotComment, ciContains]

/-- C3: the open set and the resolved set partition every filtered comment
set — together they are a permutation of it, membership in each is exactly
membership in the set with the corresponding flag, and no comment tests as
present in both. -/
theorem open_resolved_partition (cs : List ReviewComment) :
    (openCommentsOf cs ++ resolvedCommentsOf cs).Perm cs
    ∧ (∀ c, c ∈ openCommentsOf cs ↔ c ∈ cs ∧ c.isResolved = false)
    ∧ (∀ c, c ∈ resolvedCommentsOf cs ↔ c ∈ cs ∧ c.isResolved = true)
    ∧ (∀ c, (decide (c ∈ openCommentsOf cs) && decide (c ∈ resolvedCommentsOf cs)) = false) := by
  refine ⟨?_, fun c => ?_, fun c => ?_, fun c => ?_⟩
  · have h := List.filter_append_perm (fun c : ReviewComment => !c.isResolved) cs
    simpa [openCommentsOf, resolvedCommentsOf] using h
  · simp [openCommentsOf, List.mem_filter]
  · simp [resolvedCommentsOf, List.mem_filter]
  · by_cases h : c.isResolved
    · simp [openCommentsOf, List.mem_filter, h]
    · simp [resolvedCommentsOf, List.mem_filter, h]

/-- Representative instantiation of `open_resolved_partition`. -/
theorem open_resolved_partition_witness :
    (openCommentsOf c3Comments ++ resolvedCommentsOf c3Comments).Perm c3Comments
    ∧ (∀ c, c ∈ openCommentsOf c3Comments ↔ c ∈ c3Comments ∧ c.isResolved = false)
    ∧ (∀ c, c ∈ resolvedCommentsOf c3Comments ↔ c ∈ c3Comments ∧ c.isResolved = true)
    ∧ (∀ c, (decide (c ∈ openCommentsOf c3Comments) &&
        decide (c ∈ resolvedCommentsOf c3Comments)) = false) :=
  open_resolved_partition c3Comments

/-- C4: when every comment enters unresolved, a successful side-channel
query marks exactly the comments whose id is a resolved thread's anchor as
resolved and returns every other comment unchanged, with no warning; a
failed query returns all comments unchanged and emits the warning. -/
theorem reconciler_marks_exactly_anchors (threads : List ReviewThread)
    (cs : List ReviewComment) (h : cs.all (fun c => !c.isResolved) = true) :
    (fetchResolvedStatus (Except.ok threads) cs).1
      = cs.map (fun c =>
          if (resolvedThreadIds threads).contains c.id then
            { c with isResolved := true }
          else c)
    ∧ (fetchResolvedStatus (Except.ok threads) cs).2 = false
    ∧ ∀ msg, fetchResolvedStatus (Except.error msg) cs = (cs, true) := by
  refine ⟨?_, rfl, fun msg => rfl⟩
  simp only [fetchResolvedStatus]
  apply List.map_congr_left
  intro c hc
  have hc' : c.isResolved = false := by
    have := List.all_eq_true.mp h c hc
    simpa using this
  by_cases hm : c.id ∈ resolvedThreadIds threads
  · simp [List.contains, List.elem_eq_mem, hm]
  · cases c
    simp_all [List.contains, List.elem_eq_mem]

/-- Instantiation of `reconciler_marks_exactly_anchors`: the resolved thread
anchored at id 2 marks exactly the second comment. -/
theorem reconciler_marks_exactly_anchors_witness :
    (c4Comments.all (fun c => !c.isResolved) = true)
    ∧ ((fetchResolvedStatus (Except.ok c4Threads) c4Comments).1
        = c4Comments.map (fun c =>
            if (resolvedThreadIds c4Threads).contains c.id then
              { c with isResolved := true }
            else c)
      ∧ (fetchResolvedStatus (Except.ok c4Threads) c4Comments).2 = false
      ∧ ∀ msg, fetchResolvedStatus (Except.error msg) c4Comments = (c4Comments, true)) :=
  ⟨by decide, reconciler_marks_exactly_anchors c4Threads c4Comments (by decide)⟩

/-- Membership is invariant under first-occurrence deduplication. -/
theorem mem_dedupFirst {x : String} : ∀ {l : List String}, x ∈ dedupFirst l ↔ x ∈ l := by
  intro l
  induction l with
  | nil => simp [dedupFirst]
  | cons k ks ih =>
    simp only [dedupFirst, List.mem_cons, List.mem_filter, ih, ne_eq, decide_not,
      Bool.not_eq_eq_eq_not, Bool.not_true, decide_eq_false_iff_not]
    by_cases hx : x = k <;> simp [hx, ih]

/-- First-occurrence deduplication yields distinct keys. -/
theorem dedupFirst_nodup : ∀ (l : List String), (dedupFirst l).Nodup := by
  intro l
  induction l with
  | nil => simp [dedupFirst]
  | cons k ks ih =>
    rw [dedupFirst, List.nodup_cons]
    constructor
    · simp [List.mem_filter]
    · exact List.Nodup.filter _ ih

/-- Appending one key extends the deduplicated list exactly when the key is
new. -/
theorem dedupFirst_snoc (l : List String) (k : String) :
    dedupFirst (l ++ [k]) = if k ∈ l then dedupFirst l else dedupFirst l ++ [k] := by
  induction l with
  | nil => simp [dedupFirst]
  | cons a l' ih =>
    simp only [List.cons_append, dedupFirst, List.append_eq]
    rw [ih]
    by_cases hk : k ∈ l'
    · rw [if_pos hk, if_pos (List.mem_cons_of_mem a hk)]
    · rw [if_neg hk]
      by_cases hak : k = a
      · subst hak
        rw [if_pos (List.mem_cons_self _ _), List.filter_append]
        simp
      · have hmem : ¬ k ∈ a :: l' := by simp [hak, hk]
        rw [if_neg hmem, List.filter_append]
        simp [hak]

/-- Updating an association list whose keys are distinct appends the comment
to the group of the key, when the key is present. -/
theorem addToGroups_mem (ks : List String) (F : String → List ReviewComment)
    (key : String) (c : ReviewComment) (hnd : ks.Nodup) (hk : key ∈ ks) :
    addToGroups (ks.map (fun k => (k, F k))) key c
      = ks.map (fun k => (k, F k ++ if key = k then [c] else [])) := by
  induction ks with
  | nil => cases hk
  | cons a ks' ih =>
    rw [List.nodup_cons] at hnd
    by_cases ha : a = key
    · subst ha
      simp only [List.map_cons, addToGroups, if_true]
      have htail : ks'.map (fun k => (k, F k))
          = ks'.map (fun k => (k, F k ++ if a = k then [c] else [])) := by
        apply List.map_congr_left
        intro k hk'
        have hne : ¬ a = k := fun h => hnd.1 (h ▸ hk')
        simp [hne]
      exact congrArg (List.cons (a, F a ++ [c])) htail
    · have hk' : key ∈ ks' := by
        cases List.mem_cons.mp hk with
        | inl h => exact absurd h.symm ha
        | inr h => exact h
      simp only [List.map_cons, addToGroups, if_neg ha]
      rw [ih hnd.2 hk']
      have hne : ¬ key = a := fun h => ha h.symm
      simp [hne]

/-- Updating an association list with a new key appends a fresh singleton
group at the end. -/
theorem addToGroups_new (ks : List String) (F : String → List ReviewComment)
    (key : String) (c : ReviewComment) (hk : key ∉ ks) :
    addToGroups (ks.map (fun k => (k, F k))) key c
      = ks.map (fun k => (k, F k)) ++ [(key, [c])] := by
  induction ks with
  | nil => rfl
  | cons a ks' ih =>
    have ha : ¬ a = key := fun h => hk (h ▸ List.mem_cons_self a ks')
    simp only [List.map_cons, addToGroups, if_neg ha, List.cons_append]
    rw [ih (fun h => hk (List.mem_cons_of_mem _ h))]

/-- One grouping step preserves the first-insertion characterization of the
record. -/
theorem addToGroups_specGroups (done : List ReviewComment) (c : ReviewComment) :
    addToGroups (specGroups done) (pathKey c) c = specGroups (done ++ [c]) := by
  unfold specGroups
  rw [List.map_append, List.map_cons, List.map_nil, dedupFirst_snoc]
  by_cases hk : pathKey c ∈ done.map pathKey
  · rw [if_pos hk]
    rw [addToGroups_mem _ _ _ _ (dedupFirst_nodup _) (mem_dedupFirst.mpr hk)]
    apply List.map_congr_left
    intro k _
    rw [List.filter_append]
    by_cases hc : pathKey c = k <;> simp [hc]
  · rw [if_neg hk]
    rw [addToGroups_new _ _ _ _ (fun h => hk (mem_dedupFirst.mp h))]
    rw [List.map_append, List.map_cons, List.map_nil]
    congr 1
    · apply List.map_congr_left
      intro k hk'
      have hck : ¬ pathKey c = k := fun h => hk (h ▸ mem_dedupFirst.mp hk')
      rw [List.filter_append]
      simp [hck]
    · have hdone : done.filter (fun x => pathKey x = pathKey c) = [] := by
        rw [List.filter_eq_nil_iff]
        intro a ha
        simp only [decide_eq_true_eq]
        exact fun h => hk (h ▸ List.mem_map_of_mem pathKey ha)
      rw [List.filter_append, hdone]
      simp

/-- The grouping loop computes the first-insertion record. -/
theorem buildGroupsGo_spec : ∀ (cs done : List ReviewComment),
    buildGroupsGo (specGroups done) cs = specGroups (done ++ cs) := by
  intro cs
  induction cs with
  | nil => intro done; simp [buildGroupsGo]
  | cons c cs' ih =>
    intro done
    rw [buildGroupsGo, addToGroups_specGroups, ih (done ++ [c])]
    simp

/-- The record of `groupByFile` holds the distinct paths in first-insertion
order, each with its comments in encounter order. -/
theorem buildGroups_spec (cs : List ReviewComment) : buildGroups cs = specGroups cs := by
  simpa [buildGroups] using buildGroupsGo_spec cs []

/-- Object enumeration preserves insertion order when no key is an array
index. -/
theorem jsEntries_eq_self (l : List (String × List ReviewComment))
    (h : ∀ kv ∈ l, isArrayIndexKey kv.1 = false) : jsEntries l = l := by
  have h1 : l.filter (fun kv => isArrayIndexKey kv.1) = [] := by
    rw [List.filter_eq_nil_iff]
    intro kv hkv
    simp [h kv hkv]
  have h2 : l.filter (fun kv => !isArrayIndexKey kv.1) = l := by
    rw [List.filter_eq_self]
    intro kv hkv
    simp [h kv hkv]
  rw [jsEntries, h1, h2]
  rfl

/-- C2 (amended): for comments none of whose path keys is an array-index
string, the rendered group sequence holds the distinct paths in
first-insertion order, each group being the stable ascending sort by line
(absent line sorting as 0) of the comments of that path; in particular the
specification's `b.go`/`a.go` example holds as stated.  (Array-index paths
would instead be enumerated first, in ascending numeric order.) -/
theorem aggregator_groups_sorts_orders (cs : List ReviewComment)
    (h : cs.all (fun c => !isArrayIndexKey (pathKey c)) = true) :
    renderedGroups cs
      = (dedupFirst (cs.map pathKey)).map
          (fun k => (k, sortByLine (cs.filter (fun c => pathKey c = k))))
    ∧ (∀ kv ∈ renderedGroups cs, List.Sorted lineLe kv.2
        ∧ kv.2.Perm (cs.filter (fun c => pathKey c = kv.1)))
    ∧ (renderedGroups c2example).map (fun kv => (kv.1, kv.2.map (fun c => c.line)))
        = [("b.go", [some 2, some 5]), ("a.go", [some 1])] := by
  have hall : ∀ c ∈ cs, isArrayIndexKey (pathKey c) = false := by
    intro c hc
    simpa using List.all_eq_true.mp h c hc
  have hmain : renderedGroups cs
      = (dedupFirst (cs.map pathKey)).map
          (fun k => (k, sortByLine (cs.filter (fun c => pathKey c = k)))) := by
    rw [renderedGroups, groupByFile, buildGroups_spec, specGroups, List.map_map]
    rw [jsEntries_eq_self]
    · rfl
    · intro kv hkv
      obtain ⟨k, hk, rfl⟩ := List.mem_map.mp hkv
      obtain ⟨c, hc, hck⟩ := List.mem_map.mp (mem_dedupFirst.mp hk)
      have hfalse := hall c hc
      rw [hck] at hfalse
      simpa [Function.comp] using hfalse
  refine ⟨hmain, ?_, by decide⟩
  intro kv hkv
  rw [hmain] at hkv
  obtain ⟨k, _, rfl⟩ := List.mem_map.mp hkv
  exact ⟨List.sorted_insertionSort lineLe _, List.perm_insertionSort lineLe _⟩

/-- C2 (counterexample): with open comments on paths `b.go` then `3`, the
rendered group order is not the first-insertion order of the distinct paths
(the array-index path `3` is enumerated first). -/
theorem aggregator_group_order_cex :
    decide ((renderedGroups c2cex).map Prod.fst = dedupFirst (c2cex.map pathKey)) = false := by
  rfl

/-- Instantiation of `aggregator_groups_sorts_orders` at the specification's
example. -/
theorem aggregator_groups_sorts_orders_witness :
    (c2example.all (fun c => !isArrayIndexKey (pathKey c)) = true)
    ∧ (renderedGroups c2example
        = (dedupFirst (c2example.map pathKey)).map
            (fun k => (k, sortByLine (c2example.filter (fun c => pathKey c = k))))
      ∧ (∀ kv ∈ renderedGroups c2example, List.Sorted lineLe kv.2
          ∧ kv.2.Perm (c2example.filter (fun c => pathKey c = kv.1)))
      ∧ (renderedGroups c2example).map (fun kv => (kv.1, kv.2.map (fun c => c.line)))
          = [("b.go", [some 2, some 5]), ("a.go", [some 1])]) :=
  ⟨by decide, aggregator_groups_sorts_orders c2example (by decide)⟩

/-- C6 (code bug): for a snapshot with 2 open and 1 resolved comments and
`includeResolved = true`, the renderer emits `**Status:** 2 open issues` and
` | 1 resolved` as two separate lines of the joined document — the single
status line `**Status:** 2 open issues | 1 resolved` that the documentation
shows never occurs. -/
theorem status_line_split_bug :
    ((generateMarkdownLines c6Feedback true).contains "**Status:** 2 open issues") = true
    ∧ ((generateMarkdownLines c6Feedback true).contains " | 1 resolved") = true
    ∧ ((generateMarkdownLines c6Feedback true).contains
        "**Status:** 2 open issues | 1 resolved") = false
    ∧ containsSub "2 open issues\n | 1 resolved".data
        (generateMarkdown c6Feedback true).data = true := by
  refine ⟨rfl, rfl, rfl, rfl⟩

/-- C7: when a snapshot has no open comments the document consists of the
header and status blocks, then exactly the fixed no-open-issues section,
then the resolved and review sections; and the committed-file sink of such a
run deletes the feedback file when present and succeeds as a no-op when
absent. -/
theorem zero_open_fixed_message_and_delete (f : AggregatedFeedback) (incl : Bool)
    (h : f.openComments = []) :
    generateMarkdownLines f incl
      = headerLines f ++ statusLines f incl ++
          ["## No Open Issues", "", "All review comments have been resolved!", ""] ++
          resolvedSectionLines f incl ++ reviewsSectionLines f
    ∧ (∀ file, deleteFeedbackFile file = Except.ok none)
    ∧ (∀ path content file,
        runFeedbackSink path f.openComments.length content file
          = if path = "" then Except.ok file else Except.ok none) := by
  have hlen : f.openComments.length = 0 := by rw [h]; rfl
  refine ⟨?_, fun file => by cases file <;> rfl, ?_⟩
  · rw [generateMarkdownLines, openSectionLines, hlen]
    rfl
  · intro path content file
    by_cases hp : path = ""
    · rw [runFeedbackSink, if_pos hp, if_pos hp]
    · rw [runFeedbackSink, if_neg hp, if_neg hp, hlen, if_pos rfl]
      cases file <;> rfl

/-- Instantiation of `zero_open_fixed_message_and_delete` at a snapshot with
no open comments and one resolved comment. -/
theorem zero_open_fixed_message_and_delete_witness :
    (c7Feedback.openComments = [])
    ∧ (generateMarkdownLines c7Feedback true
        = headerLines c7Feedback ++ statusLines c7Feedback true ++
            ["## No Open Issues", "", "All review comments have been resolved!", ""] ++
            resolvedSectionLines c7Feedback true ++ reviewsSectionLines c7Feedback
      ∧ (∀ file, deleteFeedbackFile file = Except.ok none)
      ∧ (∀ path content file,
          runFeedbackSink path c7Feedback.openComments.length content file
            = if path = "" then Except.ok file else Except.ok none)) :=
  ⟨rfl, zero_open_fixed_message_and_delete c7Feedback true rfl⟩

/-- C9: the renderer is a pure function of the snapshot and the flag — two
calls on identical inputs return identical strings. -/
theorem renderer_deterministic (f₁ f₂ : AggregatedFeedback) (i₁ i₂ : Bool)
    (h₁ : f₁ = f₂) (h₂ : i₁ = i₂) :
    generateMarkdown f₁ i₁ = generateMarkdown f₂ i₂ := by
  rw [h₁, h₂]

/-- Instantiation of `renderer_deterministic` at a concrete snapshot. -/
theorem renderer_deterministic_witness :
    c6Feedback = c6Feedback ∧ true = true
    ∧ generateMarkdown c6Feedback true = generateMarkdown c6Feedback true :=
  ⟨rfl, rfl, renderer_deterministic c6Feedback c6Feedback true true rfl rfl⟩

end AgentCodeReview
